import Mathlib

/-!
Shallow embedding of the Coder bot's conversation and action orchestration
engine (`src/main.py`, `src/bot/conversation_manager.py`, `src/bot/database.py`,
`src/bot/ai_client.py`, `src/bot/github_app.py`), together with theorems
settling the specification claims about it.

Python strings are modelled as `List Char`; Python dictionaries with known
keys become structures with `Option` fields for keys that may be absent;
external collaborators (GitHub transport, model backend, JSON decoding) are
modelled as oracle parameters; the SQLite store becomes an explicit record of
table contents threaded through the operations, with a logical counter
standing in for both UUID generation and `CURRENT_TIMESTAMP`.
-/

namespace Coder

/-- Python strings, modelled as lists of characters. -/
abbrev PyStr := List Char

/-- Does `hay` start with `needle`?  (Helper for Python's `in` / `find`.) -/
def startsWith : PyStr → PyStr → Bool
  | _, [] => true
  | [], _ :: _ => false
  | h :: hs, n :: ns => h = n && startsWith hs ns

/-- Python's substring containment `needle in hay`. -/
def pyIn (needle : PyStr) : PyStr → Bool
  | [] => needle.isEmpty
  | h :: t => startsWith (h :: t) needle || pyIn needle t

/-- Python's `str.lower()` (ASCII case folding suffices for the code's use). -/
def lowerStr (s : PyStr) : PyStr := s.map Char.toLower

/-- Python's `str.find(needle, start)`: smallest index `i ≥ start` at which
`needle` occurs in `hay`, or `-1` when there is none. -/
def pyFindAux (needle : PyStr) : PyStr → Nat → Int
  | [], _ => if needle.isEmpty then 0 else -1
  | h :: t, i =>
    if startsWith (h :: t) needle then (i : Int)
    else pyFindAux needle t (i + 1)

/-- Python `hay.find(needle, start)`. -/
def pyFindFrom (hay needle : PyStr) (start : Nat) : Int :=
  match pyFindAux needle (hay.drop start) 0 with
  | -1 => -1
  | i => i + start

/-- Python `hay.find(needle)`. -/
def pyFind (hay needle : PyStr) : Int := pyFindAux needle hay 0

/-- Python slicing `s[a:b]` for `0 ≤ a ≤ b` (the only form the code uses). -/
def pySlice (s : PyStr) (a b : Nat) : PyStr := (s.drop a).take (b - a)

/-- Python's `str.strip()`: whitespace removed from both ends. -/
def pyStrip (s : PyStr) : PyStr :=
  ((s.dropWhile Char.isWhitespace).reverse.dropWhile Char.isWhitespace).reverse

/-! ## Gating policy (`src/main.py`, `should_respond_to_issue`) -/

/-- The body sub-dictionary of an edit event's changes payload, both keys
optional (the source reads each with a dictionary get defaulting to the
empty string). -/
structure BodyChange where
  fromField : Option PyStr
  toField : Option PyStr
  deriving Repr, DecidableEq

/-- The `changes` dictionary of an edit event: key presence of `title` and
`body` is what the membership tests in `_is_significant_edit` check. -/
structure Changes where
  title : Option Unit
  body : Option BodyChange
  deriving Repr, DecidableEq

/-- The empty `changes` dictionary (the default when the payload carries no
changes key). -/
def noChanges : Changes := ⟨none, none⟩

/-- The fields of an `issues` webhook payload that the gating policy and the
issues handlers read.  `senderType` is the sender dictionary's type entry;
title and body default to the empty string when the key is absent. -/
structure IssuePayload where
  action : PyStr
  issueTitle : PyStr
  issueBody : PyStr
  issueNumber : Nat
  issueAuthor : PyStr
  repoFullName : PyStr
  installationId : Nat
  senderType : Option PyStr
  changes : Changes
  deriving Repr, DecidableEq

/-- The fixed keyword list of `should_respond_to_issue`. -/
def keywords : List PyStr :=
  [("help".toList), ("assist".toList), ("code".toList), ("bug".toList),
   ("fix".toList), ("implement".toList), ("feature".toList)]

/-- Embedding of `should_respond_to_issue` from `src/main.py`: bot senders are refused,
then an `@botUsername` mention in body or title responds, then the keyword
scan over lower-cased title/body. -/
def shouldRespondToIssue (botUsername : PyStr) (p : IssuePayload) : Bool :=
  if p.senderType = some ("Bot".toList) then false
  else if pyIn (('@' :: botUsername)) p.issueBody
          || pyIn (('@' :: botUsername)) p.issueTitle then true
  else keywords.any fun k =>
    pyIn (lowerStr k) (lowerStr p.issueTitle) || pyIn (lowerStr k) (lowerStr p.issueBody)

/-- The gating rules exactly as the specification sentence lists them:
ordered, first match wins — bot sender refuses; `@handle` in title or body
accepts; a case-insensitive keyword hit in title or body accepts; else
refuse. -/
def shouldRespondToIssueSpec (botUsername : PyStr) (p : IssuePayload) : Bool :=
  if p.senderType = some ("Bot".toList) then false
  else if pyIn (('@' :: botUsername)) p.issueTitle
          || pyIn (('@' :: botUsername)) p.issueBody then true
  else keywords.any fun k =>
    pyIn k (lowerStr p.issueTitle) || pyIn k (lowerStr p.issueBody)

theorem lowerStr_keywords : ∀ k ∈ keywords, lowerStr k = k := by decide

theorem keywordAny_lower (t b : PyStr) :
    (keywords.any fun k => pyIn (lowerStr k) t || pyIn (lowerStr k) b)
    = keywords.any fun k => pyIn k t || pyIn k b := rfl

/-- C4. The gating policy applies its rules in order with first match
winning: a bot sender is always refused; otherwise a mention of the bot's
`@handle` in title or body accepts; otherwise acceptance holds exactly when
the lower-cased title or body contains one of the seven keywords; otherwise
the event is refused.  Stated as: the code's gate coincides with the
specification's rule list on every payload. -/
theorem gating_rules_first_match (botUsername : PyStr) (p : IssuePayload) :
    shouldRespondToIssue botUsername p = shouldRespondToIssueSpec botUsername p := by
  unfold shouldRespondToIssue shouldRespondToIssueSpec
  by_cases hb : p.senderType = some ("Bot".toList)
  · simp [hb]
  · simp only [hb, if_false]
    cases hB : pyIn (('@' :: botUsername)) p.issueBody <;>
      cases hT : pyIn (('@' :: botUsername)) p.issueTitle <;>
        simp [keywordAny_lower]

/-- Witness for C4 at the specification's own example: bot handle
`coder-bot`, issue body `please @coder-bot help me`, non-bot sender. -/
theorem gating_rules_first_match_witness :
    shouldRespondToIssue ("coder-bot".toList)
      ⟨("opened".toList), [], ("please @coder-bot help me".toList), 1,
        ("alice".toList), ("o/r".toList), 7, some ("User".toList), noChanges⟩
    = shouldRespondToIssueSpec ("coder-bot".toList)
      ⟨("opened".toList), [], ("please @coder-bot help me".toList), 1,
        ("alice".toList), ("o/r".toList), 7, some ("User".toList), noChanges⟩ :=
  gating_rules_first_match ("coder-bot".toList) _

/-! ## Response parser (`src/bot/ai_client.py`, `_parse_ai_response`)

The decoder `json.loads` and the shape of the decoded object are external to
the parser's control flow, so they are oracle parameters: `decode` returns
`none` exactly when `json.loads` raises `JSONDecodeError`, and `actionsOf`
returns the object's `actions` entry when the key is present. -/

/-- Fence-open marker scanned for by `_parse_ai_response`. -/
def jsonMarker : PyStr := "```json".toList

/-- Fence-close marker. -/
def fenceMarker : PyStr := "```".toList

/-- The candidate block body: `response[json_start:json_end].strip()` with
`json_start = response.find(marker) + 7` and
`json_end = response.find(fence, json_start)`. -/
def extractedJsonBody (response : PyStr) : PyStr :=
  pyStrip (pySlice response (pyFind response jsonMarker + 7).toNat
    (pyFindFrom response fenceMarker (pyFind response jsonMarker + 7).toNat).toNat)

/-- Embedding of `_parse_ai_response`: `content` starts as the whole reply and
`actions` as `[]`; when the fence-open marker occurs and a fence-close follows
it, the block body is decoded — on success the narrative is trimmed to the
text before the marker and the `actions` entry (if any) is taken, on decode
failure both fall back untouched. -/
def parseAiResponse {J A : Type} (decode : PyStr → Option J)
    (actionsOf : J → Option (List A)) (response : PyStr) : PyStr × List A :=
  if pyIn jsonMarker response then
    if pyFindFrom response fenceMarker (pyFind response jsonMarker + 7).toNat
        > pyFind response jsonMarker + 7 then
      match decode (extractedJsonBody response) with
      | none => (response, [])
      | some j =>
        (pyStrip (pySlice response 0 (pyFind response jsonMarker).toNat),
         (actionsOf j).getD [])
    else (response, [])
  else (response, [])

/-- C3. For every raw reply containing the fence-open marker whose block body
fails to decode, the parser returns the original, untrimmed full reply text
as narrative, and an empty action list. -/
theorem parser_fallback_on_malformed {J A : Type} (decode : PyStr → Option J)
    (actionsOf : J → Option (List A)) (response : PyStr)
    (hmark : pyIn jsonMarker response = true)
    (hfail : decode (extractedJsonBody response) = none) :
    parseAiResponse decode actionsOf response = (response, []) := by
  unfold parseAiResponse
  simp only [hmark, if_true, hfail]
  split <;> rfl

/-- Witness for C3 at the specification's own example: the reply
`Hello` + fence-open + `not valid data` + fence-close, with a decoder that
rejects the body. -/
theorem parser_fallback_on_malformed_witness :
    parseAiResponse (fun _ => (none : Option Unit)) (fun _ => (none : Option (List Unit)))
      (("Hello\n```json\nnot valid data\n```").toList)
    = ((("Hello\n```json\nnot valid data\n```").toList), []) :=
  parser_fallback_on_malformed _ _ _ (by decide) rfl

/-! ## Installation token cache (`src/bot/github_app.py`, `get_installation_token`) -/

/-- One cached installation token: value and expiry instant (seconds). -/
structure TokenData where
  token : PyStr
  expiresAt : Int
  deriving Repr, DecidableEq

/-- The `token_cache` dictionary, keyed by installation id. -/
abbrev TokenCache := List (Nat × TokenData)

/-- Dictionary lookup `token_cache.get(cache_key)`. -/
def cacheLookup (cache : TokenCache) (iid : Nat) : Option TokenData :=
  match cache.find? (fun e => e.1 == iid) with
  | some e => some e.2
  | none => none

/-- Dictionary assignment `token_cache[cache_key] = ...`: the single entry for
the key is replaced (last write wins). -/
def cacheInsert (cache : TokenCache) (iid : Nat) (td : TokenData) : TokenCache :=
  (iid, td) :: cache.filter (fun e => ¬ e.1 = iid)

/-- Five-minute safety margin, in seconds. -/
def tokenSafetyMargin : Int := 300

/-- Embedding of `get_installation_token`: a cached token is returned only
when it expires strictly more than five minutes after `now`; otherwise a
fresh token is minted (the `mint` oracle models
`integration.get_access_token`, which may raise) and cached. -/
def getInstallationToken (now : Int) (mint : Except Unit TokenData)
    (cache : TokenCache) (iid : Nat) : Except Unit (PyStr × TokenCache) :=
  match cacheLookup cache iid with
  | some td =>
    if td.expiresAt > now + tokenSafetyMargin then .ok (td.token, cache)
    else
      match mint with
      | .error e => .error e
      | .ok t => .ok (t.token, cacheInsert cache iid t)
  | none =>
    match mint with
    | .error e => .error e
    | .ok t => .ok (t.token, cacheInsert cache iid t)

/-- C7. A cached token whose expiry lies within the five-minute margin of
`now` is never returned: the call mints a fresh token, returns it, and caches
it as the installation's single entry (last mint wins).  A cached token
expiring strictly more than five minutes from `now` is returned as is, with
no mint call (the result is the same for every mint oracle, including a
failing one) and the cache unchanged. -/
theorem token_cache_freshness (now : Int) (cache : TokenCache) (iid : Nat)
    (td : TokenData) (h : cacheLookup cache iid = some td) :
    (td.expiresAt ≤ now + tokenSafetyMargin →
      ∀ t : TokenData,
        getInstallationToken now (.ok t) cache iid = .ok (t.token, cacheInsert cache iid t)
        ∧ cacheLookup (cacheInsert cache iid t) iid = some t)
    ∧ (td.expiresAt > now + tokenSafetyMargin →
        ∀ mint, getInstallationToken now mint cache iid = .ok (td.token, cache)) := by
  constructor
  · intro hstale t
    constructor
    · unfold getInstallationToken
      rw [h]
      dsimp only
      rw [if_neg (not_lt.mpr hstale)]
    · simp [cacheLookup, cacheInsert, List.find?]
  · intro hfresh mint
    unfold getInstallationToken
    rw [h]
    dsimp only
    rw [if_pos hfresh]

/-- Witness for C7 at the specification's example instants: a token expiring
in 3 minutes (180 s) is replaced by the minted one; a token expiring in
10 minutes (600 s) is returned even when the mint oracle would fail. -/
theorem token_cache_freshness_witness :
    (getInstallationToken 0 (.ok ⟨("new").toList, 3600⟩) [(1, ⟨("old").toList, 180⟩)] 1
      = .ok ((("new").toList), cacheInsert [(1, ⟨("old").toList, 180⟩)] 1 ⟨("new").toList, 3600⟩))
    ∧ (getInstallationToken 0 (.error ()) [(1, ⟨("old").toList, 600⟩)] 1
      = .ok ((("old").toList), [(1, ⟨("old").toList, 600⟩)])) :=
  ⟨((token_cache_freshness 0 [(1, ⟨("old").toList, 180⟩)] 1 ⟨("old").toList, 180⟩ rfl).1
      (by decide) ⟨("new").toList, 3600⟩).1,
   (token_cache_freshness 0 [(1, ⟨("old").toList, 600⟩)] 1 ⟨("old").toList, 600⟩ rfl).2
      (by decide) (.error ())⟩

/-! ## Persistent store (`src/bot/database.py`)

The SQLite tables become lists of rows.  A single logical counter
`nextStamp` stands in for both UUID generation and `CURRENT_TIMESTAMP`:
every insert consumes one strictly increasing stamp, used as the row id and
its `created_at`, so `created_at` ordering coincides with insertion order. -/

/-- Row of the `conversations` table. -/
structure Conversation where
  id : Nat
  installationId : Nat
  repoFullName : PyStr
  contextType : PyStr
  contextNumber : Nat
  status : PyStr
  createdAt : Nat
  updatedAt : Nat
  deriving Repr, DecidableEq

/-- Row of the `messages` table. -/
structure Message where
  id : Nat
  conversationId : Nat
  role : PyStr
  content : PyStr
  author : PyStr
  githubEventType : PyStr
  createdAt : Nat
  deriving Repr, DecidableEq

/-- Row of the `agent_actions` table. -/
structure AgentActionRow where
  id : Nat
  conversationId : Nat
  actionType : PyStr
  actionData : PyStr
  status : PyStr
  completedAt : Option Nat
  errorMessage : Option PyStr
  deriving Repr, DecidableEq

/-- The whole store. -/
structure DbState where
  nextStamp : Nat
  conversations : List Conversation
  messages : List Message
  agentActions : List AgentActionRow
  deriving Repr, DecidableEq

/-- Embedding of `create_conversation`: inserts a row, returning its id. -/
def createConversation (db : DbState) (iid : Nat) (repo ctype : PyStr)
    (cnum : Nat) (status : PyStr) : Nat × DbState :=
  (db.nextStamp,
   { db with
      nextStamp := db.nextStamp + 1,
      conversations := db.conversations ++
        [⟨db.nextStamp, iid, repo, ctype, cnum, status, db.nextStamp, db.nextStamp⟩] })

/-- Embedding of `get_conversation`: the row matching the full composite key
(installation, repo, context type, context number). -/
def getConversation (db : DbState) (iid : Nat) (repo ctype : PyStr)
    (cnum : Nat) : Option Conversation :=
  db.conversations.find? fun c =>
    c.installationId == iid && c.repoFullName == repo
      && c.contextType == ctype && c.contextNumber == cnum

/-- Embedding of `get_conversation_by_id`. -/
def getConversationById (db : DbState) (cid : Nat) : Option Conversation :=
  db.conversations.find? fun c => c.id == cid

/-- Embedding of `update_conversation_status`: sets `status`, bumps
`updated_at`. -/
def updateConversationStatus (db : DbState) (cid : Nat) (status : PyStr) : DbState :=
  { db with
      nextStamp := db.nextStamp + 1,
      conversations := db.conversations.map fun c =>
        if c.id == cid then { c with status := status, updatedAt := db.nextStamp } else c }

/-- Embedding of `add_message`: appends the message row and bumps the owning
conversation's `updated_at`. -/
def addMessage (db : DbState) (cid : Nat) (role content author tag : PyStr) :
    Nat × DbState :=
  (db.nextStamp,
   { nextStamp := db.nextStamp + 1,
     conversations := db.conversations.map fun c =>
       if c.id == cid then { c with updatedAt := db.nextStamp } else c,
     messages := db.messages ++ [⟨db.nextStamp, cid, role, content, author, tag, db.nextStamp⟩],
     agentActions := db.agentActions })

/-- Insertion step of an insertion sort, ascending on `created_at`. -/
def insertAsc (m : Message) : List Message → List Message
  | [] => [m]
  | h :: t => if m.createdAt ≤ h.createdAt then m :: h :: t else h :: insertAsc m t

/-- The `ORDER BY created_at ASC` clause of `get_conversation_messages`. -/
def sortByCreatedAt : List Message → List Message
  | [] => []
  | h :: t => insertAsc h (sortByCreatedAt t)

/-- Embedding of `get_conversation_messages`:
`SELECT * FROM messages WHERE conversation_id = ? ORDER BY created_at ASC LIMIT ?`. -/
def getConversationMessages (db : DbState) (cid : Nat) (limit : Nat) : List Message :=
  (sortByCreatedAt (db.messages.filter fun m => m.conversationId == cid)).take limit

/-- Result of the `ORDER BY created_at DESC LIMIT 1` clause: a row of
maximal `created_at` among the given rows. -/
def latestByCreatedAt : List Conversation → Option Conversation
  | [] => none
  | c :: t =>
    match latestByCreatedAt t with
    | none => some c
    | some b => if b.createdAt > c.createdAt then some b else some c

/-- Embedding of `get_conversation_by_context`:
`SELECT * FROM conversations WHERE repo_full_name = ? AND context_number = ?
ORDER BY created_at DESC LIMIT 1` — no condition on `context_type` or
`installation_id`. -/
def getConversationByContext (db : DbState) (repo : PyStr) (cnum : Nat) :
    Option Conversation :=
  latestByCreatedAt
    (db.conversations.filter fun c => c.repoFullName == repo && c.contextNumber == cnum)

/-- Embedding of `record_agent_action` (defined in the store facade; the
action executor never calls it). -/
def recordAgentAction (db : DbState) (cid : Nat) (atype adata status : PyStr) :
    Nat × DbState :=
  (db.nextStamp,
   { db with
      nextStamp := db.nextStamp + 1,
      agentActions := db.agentActions ++ [⟨db.nextStamp, cid, atype, adata, status, none, none⟩] })

/-- Embedding of `update_agent_action` (defined in the store facade; the
action executor never calls it). -/
def updateAgentAction (db : DbState) (aid : Nat) (status : PyStr)
    (errorMessage : Option PyStr) : DbState :=
  { db with
      nextStamp := db.nextStamp + 1,
      agentActions := db.agentActions.map fun a =>
        if a.id == aid then
          { a with
              status := status,
              errorMessage := errorMessage,
              completedAt := if status = ("completed").toList then some db.nextStamp else a.completedAt }
        else a }

/-! ## Context builder (`src/bot/conversation_manager.py`, `_build_repository_context`) -/

/-- One entry of the repository tree listing returned by
`get_repository_files`. -/
structure FileInfo where
  name : PyStr
  path : PyStr
  ftype : PyStr
  deriving Repr, DecidableEq

/-- The well-known file list `key_files`. -/
def keyFiles : List PyStr :=
  [("README.md".toList), ("package.json".toList), ("requirements.txt".toList),
   ("Cargo.toml".toList), ("go.mod".toList)]

/-- The byte ceiling `self.max_file_size`. -/
def maxFileSize : Nat := 100000

/-- The repository context handed to the model: tree listing plus fetched
key-file contents. -/
structure RepoContext where
  tree : List FileInfo
  files : List (PyStr × PyStr)
  deriving Repr, DecidableEq

/-- Embedding of the key-file loop of `_build_repository_context`: a tree
entry contributes its content when its exact name is well-known, its type is
`file`, and `get_file_content` (the `fetch` oracle, `none` on failure)
returns a truthy (non-empty) string shorter than the ceiling. -/
def buildRepositoryContext (files : List FileInfo) (fetch : PyStr → Option PyStr) :
    RepoContext :=
  ⟨files,
   files.foldl
     (fun acc fi =>
       if keyFiles.contains fi.name && (fi.ftype == ("file").toList) then
         match fetch fi.path with
         | some content =>
           if !content.isEmpty && content.length < maxFileSize then
             acc ++ [(fi.path, content)]
           else acc
         | none => acc
       else acc)
     []⟩

/-! ## Action executor (`src/bot/conversation_manager.py`, `_execute_ai_actions`) -/

/-- A parsed model action: the dictionary the parser took from the `actions`
array, every key optional (`action.get(...)`). -/
structure AiAction where
  typeTag : Option PyStr
  path : Option PyStr
  content : Option PyStr
  message : Option PyStr
  branch : Option PyStr
  sha : Option PyStr
  title : Option PyStr
  body : Option PyStr
  head : Option PyStr
  base : Option PyStr
  name : Option PyStr
  source : Option PyStr
  deriving Repr, DecidableEq

/-- Default action with all fields absent, to build concrete actions from. -/
def emptyAction : AiAction :=
  ⟨none, none, none, none, none, none, none, none, none, none, none, none⟩

/-- The repository transport capability used by the executor.  Each call may
raise (the `Except` error), which the executor's per-action `try` catches. -/
structure GhOracle where
  createOrUpdateFile : Nat → PyStr → Option PyStr → Option PyStr → PyStr → PyStr
    → Option PyStr → Except PyStr Bool
  createPullRequest : Nat → PyStr → Option PyStr → Option PyStr → Option PyStr
    → PyStr → Except PyStr (Option Nat)
  createBranch : Nat → PyStr → Option PyStr → PyStr → Except PyStr Bool

/-- Embedding of `_execute_create_file_action`. -/
def executeCreateFileAction (gh : GhOracle) (iid : Nat) (repo : PyStr)
    (a : AiAction) : Except PyStr Bool :=
  gh.createOrUpdateFile iid repo a.path a.content
    (a.message.getD (("Create ").toList ++ a.path.getD (("None").toList)))
    (a.branch.getD (("main").toList)) none

/-- Embedding of `_execute_update_file_action`. -/
def executeUpdateFileAction (gh : GhOracle) (iid : Nat) (repo : PyStr)
    (a : AiAction) : Except PyStr Bool :=
  gh.createOrUpdateFile iid repo a.path a.content
    (a.message.getD (("Update ").toList ++ a.path.getD (("None").toList)))
    (a.branch.getD (("main").toList)) a.sha

/-- Embedding of `_execute_create_pr_action`. -/
def executeCreatePrAction (gh : GhOracle) (iid : Nat) (repo : PyStr)
    (a : AiAction) : Except PyStr (Option Nat) :=
  gh.createPullRequest iid repo a.title a.body a.head (a.base.getD (("main").toList))

/-- Embedding of `_execute_create_branch_action`. -/
def executeCreateBranchAction (gh : GhOracle) (iid : Nat) (repo : PyStr)
    (a : AiAction) : Except PyStr Bool :=
  gh.createBranch iid repo a.name (a.source.getD (("main").toList))

/-- Per-action outcome of the executor loop: which type tag was dispatched
and whether the per-action `try` finished without an exception. -/
structure ExecOutcome where
  actionType : Option PyStr
  ok : Bool
  deriving Repr, DecidableEq

/-- One iteration of the `_execute_ai_actions` loop: dispatch on the
action's type tag (unknown tags are logged and skipped), with the
surrounding `try/except` catching any raised error. -/
def executeOneAiAction (gh : GhOracle) (iid : Nat) (repo : PyStr)
    (a : AiAction) : ExecOutcome :=
  match a.typeTag with
  | some tt =>
    if tt = ("create_file").toList then
      match executeCreateFileAction gh iid repo a with
      | .ok _ => ⟨some tt, true⟩
      | .error _ => ⟨some tt, false⟩
    else if tt = ("update_file").toList then
      match executeUpdateFileAction gh iid repo a with
      | .ok _ => ⟨some tt, true⟩
      | .error _ => ⟨some tt, false⟩
    else if tt = ("create_pr").toList then
      match executeCreatePrAction gh iid repo a with
      | .ok _ => ⟨some tt, true⟩
      | .error _ => ⟨some tt, false⟩
    else if tt = ("create_branch").toList then
      match executeCreateBranchAction gh iid repo a with
      | .ok _ => ⟨some tt, true⟩
      | .error _ => ⟨some tt, false⟩
    else ⟨some tt, true⟩
  | none => ⟨none, true⟩

/-- Embedding of `_execute_ai_actions`: the loop over the batch, threading
the store state (which the loop body never touches — no
`record_agent_action` / `update_agent_action` call appears in it) and
collecting one outcome per action. -/
def executeAiActions (gh : GhOracle) (iid : Nat) (repo : PyStr)
    (db : DbState) (actions : List AiAction) : DbState × List ExecOutcome :=
  actions.foldl
    (fun (st : DbState × List ExecOutcome) a =>
      (st.1, st.2 ++ [executeOneAiAction gh iid repo a]))
    (db, [])

/-! ## Orchestration (`src/bot/conversation_manager.py` and `src/main.py`)

The model backend is an oracle returning `none` exactly when
`generate_response` fails (it catches every exception — timeout, non-2xx,
transport error — and returns `None`).  Every run is summarised by the
resulting store together with a trace: the comments posted back, the
per-action executor outcomes, and how many times the backend was invoked. -/

/-- The dictionary `_parse_ai_response` produces: narrative content plus the
parsed action list. -/
structure AiResponse where
  content : PyStr
  actions : List AiAction
  deriving Repr, DecidableEq

/-- The model backend as seen from `_generate_ai_response`:
`ai_client.generate_response(messages, repo_context, conversation)`,
`none` on any failure. -/
abbrev AiOracle := List Message → RepoContext → Conversation → Option AiResponse

/-- One comment posted back to the origin thread
(`github.create_issue_comment`). -/
structure Post where
  issueNumber : Nat
  body : PyStr
  deriving Repr, DecidableEq

/-- Outcome of one orchestrated pass: final store, posted comments, executor
outcomes, and the number of model invocations. -/
structure RunResult where
  db : DbState
  posts : List Post
  execs : List ExecOutcome
  aiCalls : Nat
  deriving Repr, DecidableEq

/-- `self.max_context_messages`. -/
def maxContextMessages : Nat := 20

/-- Embedding of `_generate_ai_response`: look up the conversation (absent →
return), read recent messages, build repository context, invoke the backend;
on a reply, append the assistant message, post the narrative to the origin
issue, and execute the actions.  The surrounding `try/except` makes the
whole function total. -/
def generateAiResponse (gh : GhOracle) (files : List FileInfo)
    (fetch : PyStr → Option PyStr) (ai : AiOracle) (db : DbState) (cid : Nat)
    (p : IssuePayload) : RunResult :=
  match getConversationById db cid with
  | none => ⟨db, [], [], 0⟩
  | some conv =>
    match ai (getConversationMessages db cid maxContextMessages)
        (buildRepositoryContext files fetch) conv with
    | none => ⟨db, [], [], 1⟩
    | some resp =>
      let db1 := (addMessage db cid (("assistant").toList) resp.content
        (("coder-bot").toList) (("ai_response").toList)).2
      let ex := executeAiActions gh p.installationId p.repoFullName db1 resp.actions
      ⟨ex.1, [⟨p.issueNumber, resp.content⟩], ex.2, 1⟩

/-- The user-message content stored by `_process_new_issue`. -/
def issueOpenedContent (p : IssuePayload) : PyStr :=
  ("**Issue Title:** ").toList ++ p.issueTitle
    ++ ("\n\n**Description:**\n").toList ++ p.issueBody

/-- Embedding of `_process_new_issue`: store the issue as a user message,
then generate the model response. -/
def processNewIssue (gh : GhOracle) (files : List FileInfo)
    (fetch : PyStr → Option PyStr) (ai : AiOracle) (db : DbState) (cid : Nat)
    (p : IssuePayload) : RunResult :=
  generateAiResponse gh files fetch ai
    (addMessage db cid (("user").toList) (issueOpenedContent p) p.issueAuthor
      (("issue_opened").toList)).2 cid p

/-- The significant-edit threshold (50 characters). -/
def significantEditThreshold : Nat := 50

/-- Embedding of `_is_significant_edit`: a title change is always
significant; a body change is significant when
`abs(len(old) - len(new)) > 50` with absent `from`/`to` defaulting to the
empty string; otherwise not significant. -/
def isSignificantEdit (c : Changes) : Bool :=
  if c.title.isSome then true
  else
    match c.body with
    | some bc =>
      (((bc.fromField.getD []).length - (bc.toField.getD []).length : Int)).natAbs
        > significantEditThreshold
    | none => false

/-- The user-message content stored by `_process_issue_edit`. -/
def issueEditedContent (p : IssuePayload) : PyStr :=
  ("**Updated Issue Title:** ").toList ++ p.issueTitle
    ++ ("\n\n**Updated Description:**\n").toList ++ p.issueBody

/-- Embedding of `_process_issue_edit`: when the title or body changed, store
the edit as a user message, and invoke the model only for a significant
edit. -/
def processIssueEdit (gh : GhOracle) (files : List FileInfo)
    (fetch : PyStr → Option PyStr) (ai : AiOracle) (db : DbState) (cid : Nat)
    (p : IssuePayload) : RunResult :=
  if p.changes.title.isSome || p.changes.body.isSome then
    let db1 := (addMessage db cid (("user").toList) (issueEditedContent p)
      p.issueAuthor (("issue_edited").toList)).2
    if isSignificantEdit p.changes then generateAiResponse gh files fetch ai db1 cid p
    else ⟨db1, [], [], 0⟩
  else ⟨db, [], [], 0⟩

/-- Embedding of `_get_or_create_conversation`. -/
def getOrCreateConversation (db : DbState) (iid : Nat) (repo ctype : PyStr)
    (cnum : Nat) : Nat × DbState :=
  match getConversation db iid repo ctype cnum with
  | some c => (c.id, db)
  | none => createConversation db iid repo ctype cnum (("active").toList)

/-- Embedding of `handle_issue_event` (conversation manager): resolve or
create the conversation, then process the `opened`/`edited` action. -/
def handleIssueEvent (gh : GhOracle) (files : List FileInfo)
    (fetch : PyStr → Option PyStr) (ai : AiOracle) (db : DbState)
    (p : IssuePayload) : RunResult :=
  match getOrCreateConversation db p.installationId p.repoFullName
      (("issue").toList) p.issueNumber with
  | (cid, db1) =>
    if p.action = ("opened").toList then processNewIssue gh files fetch ai db1 cid p
    else if p.action = ("edited").toList then processIssueEdit gh files fetch ai db1 cid p
    else ⟨db1, [], [], 0⟩

/-- Embedding of `archive_conversation` (conversation manager): the lookup by
repo and number only, then the status update. -/
def archiveConversation (db : DbState) (repo : PyStr) (issueNumber : Nat) : DbState :=
  match getConversationByContext db repo issueNumber with
  | some c => updateConversationStatus db c.id (("archived").toList)
  | none => db

/-- Embedding of `handle_issues_event` (`src/main.py`): for `opened`/`edited`
the gating policy decides whether the conversation manager is invoked at
all; `closed` archives. -/
def handleIssuesEvent (botUsername : PyStr) (gh : GhOracle)
    (files : List FileInfo) (fetch : PyStr → Option PyStr) (ai : AiOracle)
    (db : DbState) (p : IssuePayload) : RunResult :=
  if p.action = ("opened").toList ∨ p.action = ("edited").toList then
    if shouldRespondToIssue botUsername p then handleIssueEvent gh files fetch ai db p
    else ⟨db, [], [], 0⟩
  else if p.action = ("closed").toList then
    ⟨archiveConversation db p.repoFullName p.issueNumber, [], [], 0⟩
  else ⟨db, [], [], 0⟩

/-- A transport oracle on which every call succeeds, for concrete runs. -/
def noopGh : GhOracle :=
  ⟨fun _ _ _ _ _ _ _ => .ok true, fun _ _ _ _ _ _ => .ok (some 1), fun _ _ _ _ => .ok true⟩

/-- A model backend oracle that always fails, for concrete runs. -/
def failingAi : AiOracle := fun _ _ _ => none

/-! ## Helper lemmas -/

theorem executeAiActions_foldl (gh : GhOracle) (iid : Nat) (repo : PyStr)
    (db : DbState) :
    ∀ (l : List AiAction) (acc : List ExecOutcome),
      l.foldl (fun (st : DbState × List ExecOutcome) a =>
          (st.1, st.2 ++ [executeOneAiAction gh iid repo a])) (db, acc)
        = (db, acc ++ l.map (executeOneAiAction gh iid repo)) := by
  intro l
  induction l with
  | nil => intro acc; simp
  | cons a t ih => intro acc; simp [ih]

theorem executeAiActions_eq (gh : GhOracle) (iid : Nat) (repo : PyStr)
    (db : DbState) (actions : List AiAction) :
    executeAiActions gh iid repo db actions
      = (db, actions.map (executeOneAiAction gh iid repo)) := by
  unfold executeAiActions
  rw [executeAiActions_foldl]
  simp

/-! ## C1: what `recentMessages` returns when the conversation exceeds the limit -/

/-- C1. Evaluation of `get_conversation_messages` at the failing input: a
conversation holding three messages `m1, m2, m3` (in creation order) with
limit 2.  The query `ORDER BY created_at ASC LIMIT 2` returns the two
OLDEST messages `[m1, m2]`, not the most recent two `[m2, m3]` that the
claim (and the call site's own comment, "Get recent messages for context")
requires for the model context. -/
theorem recent_messages_returns_oldest :
    ((getConversationMessages
        ⟨4, [⟨0, 7, ("o/r").toList, ("issue").toList, 1, ("active").toList, 0, 3⟩],
          [⟨1, 0, ("user").toList, ("m1").toList, ("alice").toList, ("comment_created").toList, 1⟩,
           ⟨2, 0, ("user").toList, ("m2").toList, ("alice").toList, ("comment_created").toList, 2⟩,
           ⟨3, 0, ("user").toList, ("m3").toList, ("alice").toList, ("comment_created").toList, 3⟩],
          []⟩
        0 2).map (fun m => m.content)
      = [("m1").toList, ("m2").toList])
    ∧ [("m1").toList, ("m2").toList] ≠ [("m2").toList, ("m3").toList] := by
  constructor
  · rfl
  · decide

/-! ## C2: action isolation and (absence of) action recording -/

/-- C2 (amended). The executor attempts every action of the batch
independently — each action contributes exactly one outcome, computed
without regard to earlier failures, so an error in one action never
prevents the later ones — but the loop body contains no
`record_agent_action`/`update_agent_action` call, so the store (in
particular the `agent_actions` table) is returned untouched: no action is
recorded, with any status. -/
theorem action_isolation_no_recording (gh : GhOracle) (iid : Nat) (repo : PyStr)
    (db : DbState) (actions : List AiAction) :
    (executeAiActions gh iid repo db actions).2
        = actions.map (executeOneAiAction gh iid repo)
    ∧ (executeAiActions gh iid repo db actions).1 = db := by
  rw [executeAiActions_eq]
  exact ⟨rfl, rfl⟩

/-- A transport oracle whose file call raises on path `b`, simulating a
transport error for one action of a batch. -/
def failingOnB : GhOracle :=
  ⟨fun _ _ path _ _ _ _ =>
      if path = some (("b").toList) then .error (("boom").toList) else .ok true,
   fun _ _ _ _ _ _ => .ok (some 1),
   fun _ _ _ _ => .ok true⟩

/-- A concrete `create_file` action for a given path. -/
def fileAction (path : PyStr) : AiAction :=
  { emptyAction with typeTag := some (("create_file").toList), path := some path }

/-- C2 counterexample: a batch of three `create_file` actions where the
second raises a transport error.  All three are attempted (outcomes
`[ok, failed, ok]`), but the resulting store holds zero `agent_actions`
rows — no action in the batch is recorded as an AgentAction at all, let
alone one reaching a terminal `completed`/`failed` status. -/
theorem action_recording_counterexample :
    ((executeAiActions failingOnB 7 (("o/r").toList) ⟨0, [], [], []⟩
        [fileAction (("a").toList), fileAction (("b").toList), fileAction (("c").toList)]).2.map
          (fun e => e.ok)
      = [true, false, true])
    ∧ (executeAiActions failingOnB 7 (("o/r").toList) ⟨0, [], [], []⟩
        [fileAction (("a").toList), fileAction (("b").toList), fileAction (("c").toList)]).1.agentActions
      = [] := by
  constructor <;> rfl

/-! ## C6: the significant-edit predicate and when the model is invoked -/

/-- C6. A title change is always significant; a body-only change is
significant exactly when the absolute difference between the old and new
body lengths exceeds 50 characters; concretely, a body going from 100 to
145 characters is not significant while 100 to 160 characters is; a
non-significant edit never triggers a model invocation in
`_process_issue_edit`; and, in addition, a gating refusal means the issues
handler performs no model invocation whatever the action. -/
theorem significant_edit_threshold :
    (∀ c : Changes, c.title.isSome → isSignificantEdit c = true)
    ∧ (∀ bf bt : Option PyStr,
        (isSignificantEdit ⟨none, some ⟨bf, bt⟩⟩ = true
          ↔ Nat.dist (bf.getD []).length (bt.getD []).length > 50))
    ∧ isSignificantEdit
        ⟨none, some ⟨some (List.replicate 100 'a'), some (List.replicate 145 'a')⟩⟩ = false
    ∧ isSignificantEdit
        ⟨none, some ⟨some (List.replicate 100 'a'), some (List.replicate 160 'a')⟩⟩ = true
    ∧ (∀ (gh : GhOracle) (files : List FileInfo) (fetch : PyStr → Option PyStr)
        (ai : AiOracle) (db : DbState) (cid : Nat) (p : IssuePayload),
        isSignificantEdit p.changes = false →
        (processIssueEdit gh files fetch ai db cid p).aiCalls = 0)
    ∧ (∀ (bot : PyStr) (gh : GhOracle) (files : List FileInfo)
        (fetch : PyStr → Option PyStr) (ai : AiOracle) (db : DbState)
        (p : IssuePayload),
        shouldRespondToIssue bot p = false →
        (handleIssuesEvent bot gh files fetch ai db p).aiCalls = 0) := by
  refine ⟨?_, ?_, ?_, ?_, ?_, ?_⟩
  · intro c h
    unfold isSignificantEdit
    rw [if_pos h]
  · intro bf bt
    simp only [isSignificantEdit, Option.isSome_none, Bool.false_eq_true, if_false,
      significantEditThreshold, decide_eq_true_eq]
    rw [Nat.dist]
    omega
  · simp [isSignificantEdit, significantEditThreshold, List.length_replicate]
  · simp [isSignificantEdit, significantEditThreshold, List.length_replicate]
  · intro gh files fetch ai db cid p h
    unfold processIssueEdit
    cases hc : (p.changes.title.isSome || p.changes.body.isSome) <;> simp [hc, h]
  · intro bot gh files fetch ai db p h
    unfold handleIssuesEvent
    split
    · simp [h]
    · split <;> rfl

/-- Witness for C6: each universally quantified conjunct applied at a
concrete input — a title-only change, a 100→160 body change, a
non-significant edit run through `_process_issue_edit`, and a refused
payload run through the issues handler. -/
theorem significant_edit_threshold_witness :
    isSignificantEdit ⟨some (), none⟩ = true
    ∧ (isSignificantEdit ⟨none, some ⟨some (("ab").toList), none⟩⟩ = true
        ↔ Nat.dist 2 0 > 50)
    ∧ (processIssueEdit noopGh [] (fun _ => none) failingAi ⟨0, [], [], []⟩ 0
        ⟨("edited").toList, ("t").toList, ("b").toList, 1, ("alice").toList,
          ("o/r").toList, 7, some (("User").toList), noChanges⟩).aiCalls = 0
    ∧ (handleIssuesEvent ("coder-bot".toList) noopGh [] (fun _ => none) failingAi
        ⟨0, [], [], []⟩
        ⟨("opened").toList, ("hello").toList, ("world").toList, 1, ("alice").toList,
          ("o/r").toList, 7, some (("User").toList), noChanges⟩).aiCalls = 0 :=
  ⟨significant_edit_threshold.1 ⟨some (), none⟩ rfl,
   (significant_edit_threshold.2.1 (some (("ab").toList)) none).trans (by decide),
   significant_edit_threshold.2.2.2.2.1 noopGh [] (fun _ => none) failingAi
     ⟨0, [], [], []⟩ 0 _ (by decide),
   significant_edit_threshold.2.2.2.2.2 ("coder-bot".toList) noopGh [] (fun _ => none)
     failingAi ⟨0, [], [], []⟩ _ (by decide)⟩

/-! ## C10: the archive lookup matches on repo and number only -/

theorem latestByCreatedAt_none :
    ∀ l : List Conversation, latestByCreatedAt l = none → l = [] := by
  intro l h
  cases l with
  | nil => rfl
  | cons c t =>
    unfold latestByCreatedAt at h
    cases hl : latestByCreatedAt t <;> simp [hl] at h
    split at h <;> simp at h

theorem latestByCreatedAt_spec :
    ∀ (l : List Conversation) (c : Conversation), latestByCreatedAt l = some c →
      c ∈ l ∧ ∀ c' ∈ l, c'.createdAt ≤ c.createdAt := by
  intro l
  induction l with
  | nil => intro c h; simp [latestByCreatedAt] at h
  | cons a t ih =>
    intro c h
    unfold latestByCreatedAt at h
    cases hl : latestByCreatedAt t with
    | none =>
      rw [hl] at h
      have ht := latestByCreatedAt_none t hl
      subst ht
      simp at h
      subst h
      simp
    | some b =>
      rw [hl] at h
      dsimp only at h
      obtain ⟨hbmem, hbmax⟩ := ih b hl
      by_cases hgt : b.createdAt > a.createdAt
      · rw [if_pos hgt] at h
        obtain rfl : b = c := by simpa using h
        refine ⟨List.mem_cons_of_mem a hbmem, ?_⟩
        intro c' hc'
        rcases List.mem_cons.mp hc' with rfl | hc'
        · exact le_of_lt hgt
        · exact hbmax c' hc'
      · rw [if_neg hgt] at h
        obtain rfl : a = c := by simpa using h
        refine ⟨List.mem_cons_self a t, ?_⟩
        intro c' hc'
        rcases List.mem_cons.mp hc' with rfl | hc'
        · exact le_refl _
        · exact le_trans (hbmax c' hc') (not_lt.mp hgt)

/-- Store and payload for the cross-context archive scenario: one issue
conversation (created first) and one pull-request conversation (created
second), both numbered 5 in the same repository, and a `closed` issues
event for number 5. -/
def closeDb : DbState :=
  ⟨2, [⟨0, 7, ("o/r").toList, ("issue").toList, 5, ("active").toList, 0, 0⟩,
       ⟨1, 7, ("o/r").toList, ("pull_request").toList, 5, ("active").toList, 1, 1⟩],
   [], []⟩

/-- The `closed` issues event for issue number 5. -/
def closePayload : IssuePayload :=
  ⟨("closed").toList, ("t").toList, ("b").toList, 5, ("alice").toList,
    ("o/r").toList, 7, some (("User").toList), noChanges⟩

/-- C10. The conversation selected for archiving is a most recently created
conversation matching `repo_full_name` and `context_number` only —
`context_type` and `installation_id` play no part in the lookup — and
concretely, a `closed` event for issue number 5 archives the (younger)
pull-request conversation numbered 5 of the same repository while the
issue conversation stays active. -/
theorem archive_matches_repo_and_number_only :
    (∀ (db : DbState) (repo : PyStr) (n : Nat) (c : Conversation),
      getConversationByContext db repo n = some c →
      c.repoFullName = repo ∧ c.contextNumber = n
        ∧ ∀ c' ∈ db.conversations, c'.repoFullName = repo → c'.contextNumber = n →
            c'.createdAt ≤ c.createdAt)
    ∧ ((handleIssuesEvent (("coder-bot").toList) noopGh [] (fun _ => none) failingAi
          closeDb closePayload).db.conversations.map (fun c => (c.contextType, c.status))
        = [((("issue").toList), (("active").toList)),
           ((("pull_request").toList), (("archived").toList))]) := by
  constructor
  · intro db repo n c h
    unfold getConversationByContext at h
    obtain ⟨hmem, hmax⟩ := latestByCreatedAt_spec _ c h
    obtain ⟨hin, hpred⟩ := List.mem_filter.mp hmem
    simp only [Bool.and_eq_true, beq_iff_eq] at hpred
    refine ⟨hpred.1, hpred.2, ?_⟩
    intro c' hc' h1 h2
    exact hmax c' (List.mem_filter.mpr ⟨hc', by simp [h1, h2]⟩)
  · rfl

/-- Witness for C10: the general lookup property applied to the concrete
two-conversation store, where the lookup returns the pull-request
conversation. -/
theorem archive_matches_repo_and_number_only_witness :
    (⟨1, 7, ("o/r").toList, ("pull_request").toList, 5, ("active").toList, 1, 1⟩ :
        Conversation).repoFullName = ("o/r").toList
    ∧ (⟨1, 7, ("o/r").toList, ("pull_request").toList, 5, ("active").toList, 1, 1⟩ :
        Conversation).contextNumber = 5
    ∧ ∀ c' ∈ closeDb.conversations, c'.repoFullName = ("o/r").toList →
        c'.contextNumber = 5 → c'.createdAt ≤ 1 :=
  archive_matches_repo_and_number_only.1 closeDb (("o/r").toList) 5
    ⟨1, 7, ("o/r").toList, ("pull_request").toList, 5, ("active").toList, 1, 1⟩ rfl

/-! ## C9: key-file inclusion in the repository context -/

/-- Contribution of a single tree entry to the key-file loop of
`_build_repository_context`, as an optional result. -/
def contextPick (fetch : PyStr → Option PyStr) (fi : FileInfo) :
    Option (PyStr × PyStr) :=
  if keyFiles.contains fi.name && (fi.ftype == ("file").toList) then
    match fetch fi.path with
    | some content =>
      if !content.isEmpty && content.length < maxFileSize then some (fi.path, content)
      else none
    | none => none
  else none

theorem contextStep (fetch : PyStr → Option PyStr) (fi : FileInfo)
    (acc : List (PyStr × PyStr)) :
    (if keyFiles.contains fi.name && (fi.ftype == ("file").toList) then
        match fetch fi.path with
        | some content =>
          if !content.isEmpty && content.length < maxFileSize then
            acc ++ [(fi.path, content)]
          else acc
        | none => acc
      else acc)
      = acc ++ (contextPick fetch fi).toList := by
  unfold contextPick
  cases hk : (keyFiles.contains fi.name && (fi.ftype == ("file").toList))
  · simp
  · cases hf : fetch fi.path with
    | none => simp
    | some content =>
      cases hsz : (!content.isEmpty && decide (content.length < maxFileSize)) <;> simp [hsz]

theorem buildRepositoryContext_foldl (fetch : PyStr → Option PyStr) :
    ∀ (files : List FileInfo) (acc : List (PyStr × PyStr)),
      files.foldl
        (fun acc fi =>
          if keyFiles.contains fi.name && (fi.ftype == ("file").toList) then
            match fetch fi.path with
            | some content =>
              if !content.isEmpty && content.length < maxFileSize then
                acc ++ [(fi.path, content)]
              else acc
            | none => acc
          else acc)
        acc
      = acc ++ files.filterMap (contextPick fetch) := by
  intro files
  induction files with
  | nil => intro acc; simp
  | cons fi t ih =>
    intro acc
    rw [List.foldl_cons, ih, List.filterMap_cons]
    simp only [contextStep]
    cases contextPick fetch fi <;> simp

theorem buildRepositoryContext_files (files : List FileInfo)
    (fetch : PyStr → Option PyStr) :
    (buildRepositoryContext files fetch).files = files.filterMap (contextPick fetch) := by
  unfold buildRepositoryContext
  rw [buildRepositoryContext_foldl]
  simp

theorem contextPick_eq_some (fetch : PyStr → Option PyStr) (fi : FileInfo)
    (p c : PyStr) :
    contextPick fetch fi = some (p, c)
      ↔ keyFiles.contains fi.name = true ∧ fi.ftype = ("file").toList
        ∧ fi.path = p ∧ fetch fi.path = some c ∧ c ≠ [] ∧ c.length < maxFileSize := by
  unfold contextPick
  cases hk : (keyFiles.contains fi.name && (fi.ftype == ("file").toList)) with
  | false =>
    rw [if_neg (by simp)]
    constructor
    · intro h; exact Option.noConfusion h
    · rintro ⟨h1, h2, -⟩
      have hkt : (keyFiles.contains fi.name && (fi.ftype == ("file").toList)) = true := by
        simp only [Bool.and_eq_true, beq_iff_eq]
        exact ⟨h1, h2⟩
      rw [hk] at hkt
      exact Bool.noConfusion hkt
  | true =>
    have hk2 : keyFiles.contains fi.name = true ∧ fi.ftype = ("file").toList := by
      simpa [Bool.and_eq_true] using hk
    rw [if_pos rfl]
    cases hf : fetch fi.path with
    | none =>
      constructor
      · intro h; exact Option.noConfusion h
      · rintro ⟨-, -, -, hc, -⟩; exact Option.noConfusion hc
    | some content =>
      dsimp only
      cases hsz : (!content.isEmpty && decide (content.length < maxFileSize)) with
      | false =>
        rw [if_neg (by simp)]
        constructor
        · intro h; exact Option.noConfusion h
        · rintro ⟨-, -, -, hc, hne, hlt⟩
          obtain rfl : content = c := by injection hc
          have hszt : (!content.isEmpty && decide (content.length < maxFileSize)) = true := by
            simp only [Bool.and_eq_true, Bool.not_eq_true', decide_eq_true_eq]
            exact ⟨by simpa [List.isEmpty_iff] using hne, hlt⟩
          rw [hsz] at hszt
          exact Bool.noConfusion hszt
      | true =>
        have hsz2 : content.isEmpty = false ∧ content.length < maxFileSize := by
          simpa [Bool.and_eq_true] using hsz
        rw [if_pos rfl]
        constructor
        · intro h
          simp only [Option.some.injEq, Prod.mk.injEq] at h
          obtain ⟨hp, hc⟩ := h
          subst hp; subst hc
          refine ⟨hk2.1, hk2.2, rfl, rfl, ?_, hsz2.2⟩
          intro hnil
          rw [hnil] at hsz2
          simp at hsz2
        · rintro ⟨-, -, hp, hc, -, -⟩
          obtain rfl := hp
          obtain rfl : content = c := by injection hc
          rfl

/-- C9 (amended). A well-known file from the tree (exact filename match,
type `file`) is included in the repository context with its verbatim
fetched content if and only if the fetch succeeds with non-empty content
of length strictly below the 100,000-byte ceiling; in particular content
at or above the ceiling (or empty) is excluded entirely, never truncated. -/
theorem key_file_inclusion (files : List FileInfo) (fetch : PyStr → Option PyStr)
    (p c : PyStr) :
    (p, c) ∈ (buildRepositoryContext files fetch).files
      ↔ ∃ fi ∈ files, keyFiles.contains fi.name = true ∧ fi.ftype = ("file").toList
          ∧ fi.path = p ∧ fetch fi.path = some c ∧ c ≠ [] ∧ c.length < maxFileSize := by
  rw [buildRepositoryContext_files, List.mem_filterMap]
  constructor
  · intro ⟨fi, hmem, hpick⟩
    exact ⟨fi, hmem, (contextPick_eq_some fetch fi p c).mp hpick⟩
  · intro ⟨fi, hmem, hrest⟩
    exact ⟨fi, hmem, (contextPick_eq_some fetch fi p c).mpr hrest⟩

/-- Witness for C9: on a one-entry tree whose README fetch returns `ok`
(two characters), the context contains the file, via the inclusion
criterion applied at that concrete input. -/
theorem key_file_inclusion_witness :
    ((("README.md").toList, ("ok").toList)
      ∈ (buildRepositoryContext
          [⟨("README.md").toList, ("README.md").toList, ("file").toList⟩]
          (fun _ => some (("ok").toList))).files) :=
  (key_file_inclusion
      [⟨("README.md").toList, ("README.md").toList, ("file").toList⟩]
      (fun _ => some (("ok").toList)) (("README.md").toList) (("ok").toList)).mpr
    ⟨⟨("README.md").toList, ("README.md").toList, ("file").toList⟩,
      by decide, by decide, rfl, rfl, rfl, by decide, by decide⟩

/-- C9 counterexample: a README whose fetched content has length exactly
100,000 — it does not exceed the ceiling, and its fetch succeeds, yet the
context excludes it, refuting inclusion as originally stated
("if and only if … does not exceed the 100,000-byte ceiling"). -/
theorem key_file_ceiling_counterexample :
    ((buildRepositoryContext
        [⟨("README.md").toList, ("README.md").toList, ("file").toList⟩]
        (fun _ => some (List.replicate maxFileSize 'a'))).files = [])
    ∧ (List.replicate maxFileSize 'a').length ≤ maxFileSize := by
  constructor
  · have hpick : contextPick (fun _ => some (List.replicate maxFileSize 'a'))
        ⟨("README.md").toList, ("README.md").toList, ("file").toList⟩ = none := by
      cases hA : contextPick (fun _ => some (List.replicate maxFileSize 'a'))
          ⟨("README.md").toList, ("README.md").toList, ("file").toList⟩ with
      | none => rfl
      | some pc =>
        obtain ⟨p, c⟩ := pc
        obtain ⟨-, -, -, hc, -, hlt⟩ := (contextPick_eq_some _ _ p c).mp hA
        obtain rfl : List.replicate maxFileSize 'a' = c := by injection hc
        simp [List.length_replicate] at hlt
    rw [buildRepositoryContext_files, List.filterMap_cons, hpick]
    rfl
  · simp [List.length_replicate]

/-! ## C5 and C8: orchestration lemmas -/

/-- Composite key of a conversation row. -/
def convKey (c : Conversation) : Nat × PyStr × PyStr × Nat :=
  (c.installationId, c.repoFullName, c.contextType, c.contextNumber)

theorem addMessage_convKeys (db : DbState) (cid : Nat) (r co a t : PyStr) :
    (addMessage db cid r co a t).2.conversations.map convKey
      = db.conversations.map convKey := by
  unfold addMessage
  dsimp only
  rw [List.map_map]
  apply List.map_congr_left
  intro c _
  by_cases h : (c.id == cid) = true <;> simp [Function.comp, h, convKey]

theorem generateAiResponse_failing (gh : GhOracle) (files : List FileInfo)
    (fetch : PyStr → Option PyStr) (db : DbState) (cid : Nat) (p : IssuePayload) :
    generateAiResponse gh files fetch failingAi db cid p
      = ⟨db, [], [], if (getConversationById db cid).isSome then 1 else 0⟩ := by
  unfold generateAiResponse
  cases getConversationById db cid <;> rfl

theorem generateAiResponse_convKeys (gh : GhOracle) (files : List FileInfo)
    (fetch : PyStr → Option PyStr) (ai : AiOracle) (db : DbState) (cid : Nat)
    (p : IssuePayload) :
    (generateAiResponse gh files fetch ai db cid p).db.conversations.map convKey
      = db.conversations.map convKey := by
  unfold generateAiResponse
  cases getConversationById db cid with
  | none => rfl
  | some conv =>
    dsimp only
    cases ai (getConversationMessages db cid maxContextMessages)
        (buildRepositoryContext files fetch) conv with
    | none => rfl
    | some resp =>
      dsimp only
      rw [executeAiActions_eq]
      exact addMessage_convKeys db cid _ _ _ _

theorem generateAiResponse_messages (gh : GhOracle) (files : List FileInfo)
    (fetch : PyStr → Option PyStr) (ai : AiOracle) (db : DbState) (cid : Nat)
    (p : IssuePayload) :
    ∃ tail, (generateAiResponse gh files fetch ai db cid p).db.messages
      = db.messages ++ tail := by
  unfold generateAiResponse
  cases getConversationById db cid with
  | none => exact ⟨[], by simp⟩
  | some conv =>
    dsimp only
    cases ai (getConversationMessages db cid maxContextMessages)
        (buildRepositoryContext files fetch) conv with
    | none => exact ⟨[], by simp⟩
    | some resp =>
      dsimp only
      rw [executeAiActions_eq]
      exact ⟨_, rfl⟩

/-! ## C8: a failing model backend mutates nothing beyond the user message -/

/-- C8. With a failing model backend (`generate_response` catches every
timeout, non-2xx and exception and returns `None`, modelled by the
always-`none` oracle), `_generate_ai_response` leaves the store untouched,
posts nothing and executes nothing; end to end on an `opened` issues event,
the triggering user message has already been appended before the backend
call — the ledger grows by exactly that one user message — while no
assistant message is appended, no actions run, nothing is posted, and the
handler returns normally (it is a total function). -/
theorem model_failure_isolated (gh : GhOracle) (files : List FileInfo)
    (fetch : PyStr → Option PyStr) (db : DbState) (cid : Nat) (p : IssuePayload) :
    ((generateAiResponse gh files fetch failingAi db cid p).db = db
      ∧ (generateAiResponse gh files fetch failingAi db cid p).posts = []
      ∧ (generateAiResponse gh files fetch failingAi db cid p).execs = [])
    ∧ (p.action = ("opened").toList →
        (handleIssueEvent gh files fetch failingAi db p).posts = []
        ∧ (handleIssueEvent gh files fetch failingAi db p).execs = []
        ∧ (handleIssueEvent gh files fetch failingAi db p).db.messages.map
              (fun m => (m.role, m.content, m.githubEventType))
            = db.messages.map (fun m => (m.role, m.content, m.githubEventType))
              ++ [((("user").toList), issueOpenedContent p, ("issue_opened").toList)]
        ∧ (handleIssueEvent gh files fetch failingAi db p).db.agentActions
            = db.agentActions) := by
  constructor
  · rw [generateAiResponse_failing]
    exact ⟨rfl, rfl, rfl⟩
  · intro ha
    unfold handleIssueEvent getOrCreateConversation
    cases hg : getConversation db p.installationId p.repoFullName
        (("issue").toList) p.issueNumber with
    | some c =>
      dsimp only
      rw [if_pos ha]
      unfold processNewIssue
      rw [generateAiResponse_failing]
      refine ⟨rfl, rfl, ?_, rfl⟩
      simp [addMessage]
    | none =>
      dsimp only
      unfold createConversation
      dsimp only
      rw [if_pos ha]
      unfold processNewIssue
      rw [generateAiResponse_failing]
      refine ⟨rfl, rfl, ?_, rfl⟩
      simp [addMessage]

/-- Witness for C8 on a concrete gating-accepted `opened` event over the
empty store. -/
theorem model_failure_isolated_witness :
    (handleIssueEvent noopGh [] (fun _ => none) failingAi ⟨0, [], [], []⟩
        ⟨("opened").toList, ("need help").toList, ("please fix bug").toList, 2,
          ("bob").toList, ("o/r").toList, 7, some (("User").toList), noChanges⟩).posts
      = [] :=
  ((model_failure_isolated noopGh [] (fun _ => none) ⟨0, [], [], []⟩ 0
      ⟨("opened").toList, ("need help").toList, ("please fix bug").toList, 2,
        ("bob").toList, ("o/r").toList, 7, some (("User").toList), noChanges⟩).2
    rfl).1

/-! ## C5: gating rejection versus lazy conversation creation -/

/-- An `opened` issues payload the gating policy rejects: human sender, no
mention, no keyword in `hello`/`world`. -/
def rejectedPayload : IssuePayload :=
  ⟨("opened").toList, ("hello").toList, ("world").toList, 1, ("alice").toList,
    ("o/r").toList, 7, some (("User").toList), noChanges⟩

/-- C5 counterexample: a gating-rejected `opened` issue event on a
never-seen key leaves the store completely untouched — no conversation row
is created and the issue body is not stored — refuting the claim that new
issues always create a conversation row even when gating rejects. -/
theorem gated_creation_counterexample :
    shouldRespondToIssue ("coder-bot".toList) rejectedPayload = false
    ∧ rejectedPayload.action = ("opened").toList
    ∧ (handleIssuesEvent ("coder-bot".toList) noopGh [] (fun _ => none) failingAi
        ⟨0, [], [], []⟩ rejectedPayload).db.conversations = []
    ∧ (handleIssuesEvent ("coder-bot".toList) noopGh [] (fun _ => none) failingAi
        ⟨0, [], [], []⟩ rejectedPayload).db.messages = [] :=
  ⟨rfl, rfl, rfl, rfl⟩

/-- C5 (amended). A gating rejection performs no conversation mutation for
any `opened`/`edited` issues event — the store is returned unchanged with
nothing posted, executed or invoked; the lazy creation happens only on
acceptance: a gating-accepted `opened` event on a never-seen composite key
adds exactly one conversation row for that key and stores the issue body
as a user message. -/
theorem gated_rejection_no_mutation (bot : PyStr) (gh : GhOracle)
    (files : List FileInfo) (fetch : PyStr → Option PyStr) (ai : AiOracle)
    (db : DbState) (p : IssuePayload) :
    (shouldRespondToIssue bot p = false →
      (p.action = ("opened").toList ∨ p.action = ("edited").toList) →
      handleIssuesEvent bot gh files fetch ai db p = ⟨db, [], [], 0⟩)
    ∧ (shouldRespondToIssue bot p = true → p.action = ("opened").toList →
        getConversation db p.installationId p.repoFullName (("issue").toList)
            p.issueNumber = none →
        (handleIssuesEvent bot gh files fetch ai db p).db.conversations.map convKey
            = db.conversations.map convKey
              ++ [(p.installationId, p.repoFullName, ("issue").toList, p.issueNumber)]
        ∧ ∃ m ∈ (handleIssuesEvent bot gh files fetch ai db p).db.messages,
            m.role = ("user").toList ∧ m.content = issueOpenedContent p
              ∧ m.githubEventType = ("issue_opened").toList) := by
  constructor
  · intro h1 h2
    unfold handleIssuesEvent
    rw [if_pos h2]
    simp [h1]
  · intro h1 h2 h3
    unfold handleIssuesEvent
    rw [if_pos (Or.inl h2), h1]
    rw [if_pos rfl]
    unfold handleIssueEvent getOrCreateConversation
    rw [h3]
    dsimp only
    unfold createConversation
    dsimp only
    rw [if_pos h2]
    unfold processNewIssue
    constructor
    · rw [generateAiResponse_convKeys, addMessage_convKeys]
      simp [convKey]
    · obtain ⟨tail, htail⟩ := generateAiResponse_messages gh files fetch ai
        ((addMessage
            { nextStamp := db.nextStamp + 1,
              conversations := db.conversations ++
                [⟨db.nextStamp, p.installationId, p.repoFullName, ("issue").toList,
                  p.issueNumber, ("active").toList, db.nextStamp, db.nextStamp⟩],
              messages := db.messages, agentActions := db.agentActions }
            db.nextStamp (("user").toList) (issueOpenedContent p) p.issueAuthor
            (("issue_opened").toList)).2) db.nextStamp p
      rw [htail]
      refine ⟨⟨db.nextStamp + 1, db.nextStamp, ("user").toList, issueOpenedContent p,
        p.issueAuthor, ("issue_opened").toList, db.nextStamp + 1⟩, ?_, rfl, rfl, rfl⟩
      rw [show ((addMessage
          { nextStamp := db.nextStamp + 1,
            conversations := db.conversations ++
              [⟨db.nextStamp, p.installationId, p.repoFullName, ("issue").toList,
                p.issueNumber, ("active").toList, db.nextStamp, db.nextStamp⟩],
            messages := db.messages, agentActions := db.agentActions }
          db.nextStamp (("user").toList) (issueOpenedContent p) p.issueAuthor
          (("issue_opened").toList)).2).messages
        = db.messages ++ [⟨db.nextStamp + 1, db.nextStamp, ("user").toList,
            issueOpenedContent p, p.issueAuthor, ("issue_opened").toList,
            db.nextStamp + 1⟩] from rfl]
      simp

/-- Witness for C5: the rejection conjunct applied at the concrete rejected
payload, and the acceptance conjunct at a keyword-accepted `opened` payload
over the empty store. -/
theorem gated_rejection_no_mutation_witness :
    handleIssuesEvent ("coder-bot".toList) noopGh [] (fun _ => none) failingAi
        ⟨0, [], [], []⟩ rejectedPayload = ⟨⟨0, [], [], []⟩, [], [], 0⟩
    ∧ ∃ m ∈ (handleIssuesEvent ("coder-bot".toList) noopGh [] (fun _ => none)
          failingAi ⟨0, [], [], []⟩
          ⟨("opened").toList, ("need help").toList, ("please fix bug").toList, 2,
            ("bob").toList, ("o/r").toList, 7, some (("User").toList),
            noChanges⟩).db.messages,
        m.role = ("user").toList
          ∧ m.content = issueOpenedContent
              ⟨("opened").toList, ("need help").toList, ("please fix bug").toList, 2,
                ("bob").toList, ("o/r").toList, 7, some (("User").toList), noChanges⟩
          ∧ m.githubEventType = ("issue_opened").toList :=
  ⟨(gated_rejection_no_mutation ("coder-bot".toList) noopGh [] (fun _ => none)
      failingAi ⟨0, [], [], []⟩ rejectedPayload).1 (by decide) (Or.inl rfl),
   ((gated_rejection_no_mutation ("coder-bot".toList) noopGh [] (fun _ => none)
      failingAi ⟨0, [], [], []⟩
      ⟨("opened").toList, ("need help").toList, ("please fix bug").toList, 2,
        ("bob").toList, ("o/r").toList, 7, some (("User").toList), noChanges⟩).2
      (by decide) rfl rfl).2⟩

end Coder
